import Mathlib

/-!
Shallow embedding of the vLLM plugin manager (`vllm_plugin_manager` package):
`config.py` (PluginSpec, validation, install-spec resolution, config-path
lookup), `core/registry.py` (PluginRegistry), `sources/installer.py`
(PackageInstaller) and `manager.py` (PluginManager.install_plugins).

Python `Optional[str]` fields are modelled as `Option String`; Python
truthiness of such a field (`if self.x:`) is `truthy`: a value is truthy
iff it is present and non-empty.  External effects (the `pip` subprocess,
the installed-package metadata index, entry-point discovery) are modelled
as explicit oracle parameters, and every `pip` invocation is logged as the
argument vector passed to it, so that claims about "number of
package-manager invocations" are claims about the logged list.
-/

namespace VPM

/-- Python truthiness of an `Optional[str]` value: `None` and `""` are falsy. -/
def truthy : Option String → Bool
  | none => false
  | some s => s != ""

/-- Python f-string rendering of an `Optional[str]`: `None` prints as "None". -/
def pyStr : Option String → String
  | none => "None"
  | some s => s

/-- `PluginSpec` from `config.py`: declarative desired state for one plugin.
Field defaults follow the dataclass defaults (`enabled = True`,
`editable = True`). -/
structure PluginSpec where
  name : String
  source : String
  enabled : Bool := true
  package : Option String := none
  version : Option String := none
  url : Option String := none
  ref : Option String := none
  subdirectory : Option String := none
  path : Option String := none
  editable : Bool := true
deriving Repr, DecidableEq

/-- `PluginSpec.plugin_id` (property): the package name for a pypi spec with a
truthy `package` field, the plugin name otherwise. -/
def plugin_id (spec : PluginSpec) : String :=
  if spec.source = "pypi" ∧ truthy spec.package then spec.package.getD "" else spec.name

/-- `PluginSpec.get_install_spec`: builds the pip install reference string.
`ConfigError` is modelled as the `Except.error` branch carrying the message. -/
def get_install_spec (spec : PluginSpec) : Except String String :=
  if spec.source = "pypi" then
    if truthy spec.version then
      .ok (pyStr spec.package ++ spec.version.getD "")
    else
      .ok (if truthy spec.package then spec.package.getD "" else spec.name)
  else if spec.source = "git" then
    .ok ("git+" ++ pyStr spec.url
      ++ (if truthy spec.ref then "@" ++ spec.ref.getD "" else "")
      ++ (if truthy spec.subdirectory then
            "#subdirectory=" ++ spec.subdirectory.getD "" else ""))
  else if spec.source = "local" then
    .ok (if truthy spec.path then spec.path.getD "" else "")
  else
    .error ("Unknown source type: " ++ spec.source)

/-- `PluginSpec.validate`: pure validation, `ConfigError` as `Except.error`. -/
def validate (spec : PluginSpec) : Except String Unit :=
  if spec.name = "" then
    .error "Plugin 'name' is required"
  else if spec.source = "" then
    .error ("Plugin '" ++ spec.name ++ "' missing 'source' field")
  else if spec.source = "pypi" then
    if !truthy spec.package then
      .error ("PyPI plugin '" ++ spec.name ++ "' missing 'package' field")
    else .ok ()
  else if spec.source = "git" then
    if !truthy spec.url then
      .error ("Git plugin '" ++ spec.name ++ "' missing 'url' field")
    else .ok ()
  else if spec.source = "local" then
    if !truthy spec.path then
      .error ("Local plugin '" ++ spec.name ++ "' missing 'path' field")
    else .ok ()
  else
    .error ("Plugin '" ++ spec.name ++ "' has unknown source: " ++ spec.source)

/-- Whether an `Except` result is the error branch. -/
def isErr {ε α : Type} : Except ε α → Bool
  | .error _ => true
  | .ok _ => false

/-- `get_config_path` from `config.py`.  The process environment is the
`Option String` value of `VLLM_PLUGIN_CONFIG`; `ex` is the filesystem
existence oracle; `home` is the user's home directory. -/
def get_config_path (env : Option String) (ex : String → Bool) (home : String) :
    Option String :=
  let default_path := home ++ "/.config/vllm/plugins.yaml"
  if truthy env then
    if ex (env.getD "") then some (env.getD "") else none
  else if ex default_path then some default_path else none

/-! ### Installer (`sources/installer.py`) -/

/-- Outcome of one `subprocess.run` of the pip command: normal completion
with an exit code and captured output, a wall-clock timeout
(`subprocess.TimeoutExpired`), or any other raised exception. -/
inductive PipOutcome where
  | completed (returncode : Int) (stdout stderr : String)
  | timedOut
  | exn (msg : String)
deriving Repr, DecidableEq

/-- The external pip process, as an oracle from the pip argument vector to
its outcome. -/
def PipOracle := List String → PipOutcome

/-- `PackageInstaller.__init__`: `timeout or DEFAULT_TIMEOUT` — a falsy
(absent or zero) constructor argument yields the 300-second default. -/
def installer_timeout (t : Option Nat) : Nat :=
  match t with
  | some n => if n = 0 then 300 else n
  | none => 300

/-- `PackageInstaller._run_pip`: classifies a pip invocation's outcome as
`(success, output)`. -/
def run_pip (timeout : Nat) (pip : PipOracle) (args : List String) :
    Bool × String :=
  match pip args with
  | .completed rc out err => (rc == 0, out ++ err)
  | .timedOut =>
      (false, "Command timed out after " ++ toString timeout ++ " seconds")
  | .exn e => (false, "Error running pip: " ++ e)

/-- `PackageInstaller.install_pypi`: result plus the pip argument vectors
invoked (always exactly one). -/
def install_pypi (timeout : Nat) (pip : PipOracle) (package : String)
    (version : Option String) (upgrade : Bool) :
    (Bool × String) × List (List String) :=
  let package_spec :=
    if truthy version then package ++ version.getD "" else package
  let args := ["install"] ++ (if upgrade then ["--upgrade"] else []) ++ [package_spec]
  (run_pip timeout pip args, [args])

/-- `PackageInstaller.install_git`. -/
def install_git (timeout : Nat) (pip : PipOracle) (url : String)
    (ref subdirectory : Option String) (editable : Bool) :
    (Bool × String) × List (List String) :=
  let git_url := "git+" ++ url
    ++ (if truthy ref then "@" ++ ref.getD "" else "")
    ++ (if truthy subdirectory then "#subdirectory=" ++ subdirectory.getD "" else "")
  let args := ["install"] ++ (if editable then ["-e"] else []) ++ [git_url]
  (run_pip timeout pip args, [args])

/-- `PackageInstaller.install_local`. -/
def install_local (timeout : Nat) (pip : PipOracle) (path : String)
    (editable : Bool) : (Bool × String) × List (List String) :=
  let args := ["install"] ++ (if editable then ["-e"] else []) ++ [path]
  (run_pip timeout pip args, [args])

/-- Result of `PackageInstaller.install_from_spec`: either a raised
`InstallerError` (the `Except.error` branch) or a `(success, message)`
tuple, together with the log of pip invocations performed. -/
structure FromSpecResult where
  result : Except String (Bool × String)
  pipCalls : List (List String)
deriving Repr

/-- `PackageInstaller.install_from_spec`: dispatch on `spec.source`.
Note that the `git` branch does not forward `spec.editable` (so
`install_git` runs with its default `editable=False`), while the `local`
branch does forward it. -/
def install_from_spec (timeout : Nat) (pip : PipOracle) (spec : PluginSpec) :
    FromSpecResult :=
  if spec.source = "pypi" then
    let r := install_pypi timeout pip
      (if truthy spec.package then spec.package.getD "" else spec.name)
      spec.version false
    ⟨.ok r.1, r.2⟩
  else if spec.source = "git" then
    if !truthy spec.url then
      ⟨.error ("Git plugin '" ++ spec.name ++ "' missing URL"), []⟩
    else
      let r := install_git timeout pip (spec.url.getD "")
        spec.ref spec.subdirectory false
      ⟨.ok r.1, r.2⟩
  else if spec.source = "local" then
    if !truthy spec.path then
      ⟨.error ("Local plugin '" ++ spec.name ++ "' missing path"), []⟩
    else
      let r := install_local timeout pip (spec.path.getD "") spec.editable
      ⟨.ok r.1, r.2⟩
  else
    ⟨.error ("Unknown source type: " ++ spec.source), []⟩

/-! ### Registry (`core/registry.py`) -/

/-- `PluginStatus` enum. -/
inductive PluginStatus where
  | pending
  | installing
  | installed
  | failed
deriving Repr, DecidableEq

/-- `PluginStatus.value`. -/
def PluginStatus.value : PluginStatus → String
  | .pending => "pending"
  | .installing => "installing"
  | .installed => "installed"
  | .failed => "failed"

/-- One value of the registry's `plugins` mapping (the JSON object built by
`register_plugin`).  `error = none` models the `"error"` key being absent. -/
structure InstallRecord where
  name : String
  source : String
  package : Option String
  version : Option String
  status : String
  entry_points : List String
  error : Option String
deriving Repr, DecidableEq

/-- The registry's `plugins` mapping, as an insertion-ordered association
list (a Python dict keyed by `plugin_id`). -/
abbrev RegMap := List (String × InstallRecord)

/-- Dict lookup (`m.get(pid)`). -/
def lookupP {α : Type} (m : List (String × α)) (pid : String) : Option α :=
  match m with
  | [] => none
  | (k, v) :: rest => if k = pid then some v else lookupP rest pid

/-- Dict assignment `m[pid] = r`: replaces in place or appends. -/
def upsert {α : Type} (m : List (String × α)) (pid : String) (r : α) :
    List (String × α) :=
  match m with
  | [] => [(pid, r)]
  | (k, v) :: rest =>
      if k = pid then (pid, r) :: rest else (k, v) :: upsert rest pid r

/-- `PluginRegistry.register_plugin`: builds a fresh record and assigns it.
The `"error"` key is set only when the `error` argument is truthy. -/
def register_plugin (m : RegMap) (plugin_id name source : String)
    (package version : Option String) (status : PluginStatus)
    (entry_points : Option (List String)) (error : Option String) : RegMap :=
  let plugin_data : InstallRecord :=
    { name := name
      source := source
      package := package
      version := version
      status := status.value
      entry_points := entry_points.getD []
      error := if truthy error then error else none }
  upsert m plugin_id plugin_data

/-- `PluginRegistry.update_status`: no-op when the plugin is absent; sets the
status string; sets `error` when the argument is truthy, otherwise deletes a
present `error` key only on a transition to `installed`. -/
def update_status (m : RegMap) (plugin_id : String) (status : PluginStatus)
    (error : Option String) : RegMap :=
  match lookupP m plugin_id with
  | none => m
  | some r =>
      let r1 := { r with status := status.value }
      let r2 :=
        if truthy error then { r1 with error := error }
        else if r1.error.isSome ∧ status = PluginStatus.installed then
          { r1 with error := none }
        else r1
      upsert m plugin_id r2

/-- `PluginRegistry.update_entry_points`: no-op when absent. -/
def update_entry_points (m : RegMap) (plugin_id : String)
    (entry_points : List String) : RegMap :=
  match lookupP m plugin_id with
  | none => m
  | some r => upsert m plugin_id { r with entry_points := entry_points }

/-- `PluginRegistry.is_installed`. -/
def is_installed (m : RegMap) (pid : String) : Bool :=
  match lookupP m pid with
  | none => false
  | some r => r.status == PluginStatus.installed.value

/-- The parsed contents of `registry.json` as seen by `PluginRegistry._load`:
the file may be absent, fail JSON parsing, or parse to a value whose
structural validity is captured by `isDict` (parsed value is an object) and
`hasPlugins` (it has a `"plugins"` key with the given mapping). -/
inductive LoadedFile where
  | absent
  | notJson
  | json (isDict : Bool) (hasPlugins : Bool) (version : Option String) (plugins : RegMap)

/-- In-memory registry document `{version, plugins}`. -/
structure RegData where
  version : Option String
  plugins : RegMap
deriving Repr, DecidableEq

/-- `PluginRegistry._create_empty_registry` (the disk write is outside the
model). -/
def create_empty_registry : RegData :=
  { version := some "1.0", plugins := [] }

/-- `PluginRegistry._load`: falls back to an empty registry when the file is
absent, not valid JSON, or not a dict containing a `"plugins"` key.  Total:
no exception escapes for any of those file states. -/
def load (f : LoadedFile) : RegData :=
  match f with
  | .absent => create_empty_registry
  | .notJson => create_empty_registry
  | .json isDict hasPlugins version plugins =>
      if isDict && hasPlugins then { version := version, plugins := plugins }
      else create_empty_registry

/-! ### Manager (`manager.py`) -/

/-- The per-plugin result mapping returned by `install_plugins` (a Python
dict from `plugin_id` to `(success, message)`). -/
abbrev ResMap := List (String × (Bool × String))

/-- External collaborators of `PluginManager.install_plugins`: the installer
timeout, the pip subprocess, the installed-version metadata query
(`get_installed_version`), and the entry-point attributions that
`_update_entry_points` would discover after a cache invalidation, as
`(package name, "group:name")` pairs in processing order. -/
structure ManagerEnv where
  timeout : Nat
  pip : PipOracle
  ver : String → Option String
  newEps : List (String × String)

/-- Mutable state of the reconciliation loop inside `install_plugins`. -/
structure LoopState where
  reg : RegMap
  results : ResMap
  pipCalls : List (List String)
  installed_any : Bool

/-- One iteration of the `for spec in enabled_plugins` loop of
`PluginManager.install_plugins`: skip an already-installed plugin with
`(true, "Already installed")`; otherwise register pending, move to
installing, run the installer, and record the outcome — a raised
`InstallerError` (or any other exception) is caught and converted into a
`(false, message)` result with a `failed` registry status. -/
def loop_step (env : ManagerEnv) (spec : PluginSpec) (st : LoopState) :
    LoopState :=
  let pid := plugin_id spec
  if is_installed st.reg pid then
    { st with results := upsert st.results pid (true, "Already installed") }
  else
    let reg1 := register_plugin st.reg pid spec.name spec.source
      spec.package none .pending none none
    let reg2 := update_status reg1 pid .installing none
    let fr := install_from_spec env.timeout env.pip spec
    match fr.result with
    | .ok (success, message) =>
      if success then
        let version := env.ver
          (if truthy spec.package then spec.package.getD "" else spec.name)
        { reg := register_plugin reg2 pid spec.name spec.source
            spec.package version .installed none none
          results := upsert st.results pid
            (true, "Installed "
              ++ (if truthy version then version.getD "" else "successfully"))
          pipCalls := st.pipCalls ++ fr.pipCalls
          installed_any := true }
      else
        { reg := update_status reg2 pid .failed (some message)
          results := upsert st.results pid (false, message)
          pipCalls := st.pipCalls ++ fr.pipCalls
          installed_any := st.installed_any }
    | .error e =>
        { reg := update_status reg2 pid .failed (some e)
          results := upsert st.results pid (false, e)
          pipCalls := st.pipCalls ++ fr.pipCalls
          installed_any := st.installed_any }

/-- The whole reconciliation loop, iterating `loop_step` in list order. -/
def install_loop (env : ManagerEnv) :
    List PluginSpec → LoopState → LoopState
  | [], st => st
  | spec :: rest, st => install_loop env rest (loop_step env spec st)

/-- One step of `PluginManager._update_entry_points`: attribute the newly
visible entry point `ep` to the registry entry named by its owning package,
appending it when not already present. -/
def attach_entry_point (reg : RegMap) (pkg ep : String) : RegMap :=
  match lookupP reg pkg with
  | none => reg
  | some r =>
      if ep ∈ r.entry_points then reg
      else update_entry_points reg pkg (r.entry_points ++ [ep])

/-- `PluginManager._update_entry_points` over all discovered attributions. -/
def attach_all (reg : RegMap) (eps : List (String × String)) : RegMap :=
  eps.foldl (fun m pe => attach_entry_point m pe.1 pe.2) reg

/-- Observable outcome of one `PluginManager.install_plugins` call: the
final registry `plugins` mapping, the per-plugin result mapping, and the
pip invocations performed during the call. -/
structure RunOutcome where
  reg : RegMap
  results : ResMap
  pipCalls : List (List String)

/-- `PluginManager.install_plugins`: filter to enabled plugins (empty →
immediate empty result), run the reconciliation loop, and when at least one
plugin was newly installed, invalidate the discovery cache and attribute
newly visible entry points. -/
def install_plugins (env : ManagerEnv) (plugins : List PluginSpec)
    (reg0 : RegMap) : RunOutcome :=
  let enabled := plugins.filter (fun p => p.enabled)
  if enabled.isEmpty then { reg := reg0, results := [], pipCalls := [] }
  else
    let st := install_loop env enabled
      { reg := reg0, results := [], pipCalls := [], installed_any := false }
    if st.installed_any then
      { reg := attach_all st.reg env.newEps
        results := st.results
        pipCalls := st.pipCalls }
    else
      { reg := st.reg, results := st.results, pipCalls := st.pipCalls }

/-! ### Concrete instances used to exercise the orchestrator -/

/-- A pypi spec used to exercise a successful reconciliation run. -/
def specW : PluginSpec := { name := "a", source := "pypi", package := some "pkg" }

/-- An environment whose pip always succeeds and whose metadata index
reports version 1.0 for every package. -/
def envW : ManagerEnv :=
  { timeout := 300
    pip := fun _ => .completed 0 "" ""
    ver := fun _ => some "1.0"
    newEps := [] }

/-- A pypi spec whose install fails in `envFailW`. -/
def specFailW : PluginSpec :=
  { name := "b", source := "pypi", package := some "bad" }

/-- A pypi spec whose install succeeds in `envFailW`. -/
def specOkW : PluginSpec :=
  { name := "a", source := "pypi", package := some "good" }

/-- An environment whose pip fails (exit 1, output "boom") exactly for the
package `bad` and succeeds for everything else. -/
def envFailW : ManagerEnv :=
  { timeout := 300
    pip := fun args =>
      if args = ["install", "bad"] then .completed 1 "boom" ""
      else .completed 0 "" ""
    ver := fun _ => some "1.0"
    newEps := [] }

/-! ### Registry call sequences (for the record invariant) -/

/-- One mutating registry call: `register_plugin` or `update_status`. -/
inductive RegCall where
  | register (plugin_id name source : String) (package version : Option String)
      (status : PluginStatus) (entry_points : Option (List String))
      (error : Option String)
  | update (plugin_id : String) (status : PluginStatus) (error : Option String)

/-- Apply one registry call to the `plugins` mapping. -/
def applyCall (m : RegMap) : RegCall → RegMap
  | .register pid name source package version status eps err =>
      register_plugin m pid name source package version status eps err
  | .update pid status err => update_status m pid status err

/-- Apply a sequence of registry calls in order. -/
def applyCalls (m : RegMap) (cs : List RegCall) : RegMap :=
  cs.foldl applyCall m

/-- The record-level invariant claimed by the spec: the `error` field is
present iff the record's status is `failed`. -/
def errIffFailed (m : RegMap) : Prop :=
  ∀ pid r, lookupP m pid = some r → (r.error ≠ none ↔ r.status = "failed")

/-- A registry call is disciplined when it passes a truthy (non-empty)
`error` argument exactly when its status argument is `failed`. -/
def disciplined : RegCall → Prop
  | .register _ _ _ _ _ st _ err => (truthy err = true ↔ st = .failed)
  | .update _ st err => (truthy err = true ↔ st = .failed)

/-- A registry call is compatible with registry `m` when it is not an
`update_status` that moves a currently-failed record to `pending` or
`installing` (such a call keeps the stale `error` on the record). -/
def compatible (m : RegMap) : RegCall → Prop
  | .register _ _ _ _ _ _ _ _ => True
  | .update pid st _ =>
      (st = .pending ∨ st = .installing) →
        ∀ r, lookupP m pid = some r → r.status ≠ "failed"

/-- Concrete git spec with `editable: true`, used to exercise the editable
dispatch in `install_from_spec`. -/
def gitEditableSpec : PluginSpec :=
  { name := "p", source := "git", url := some "https://x", editable := true }

/-! ### Basic lemmas about the embedding -/

theorem truthy_some_iff (s : String) : truthy (some s) = true ↔ s ≠ "" := by
  simp [truthy]

theorem truthy_none : truthy none = false := rfl

theorem lookupP_upsert {α : Type} (m : List (String × α)) (k k' : String) (r : α) :
    lookupP (upsert m k r) k' = if k = k' then some r else lookupP m k' := by
  induction m with
  | nil => simp [upsert, lookupP]
  | cons kv rest ih =>
      obtain ⟨k0, v0⟩ := kv
      by_cases h0 : k0 = k
      · subst h0
        by_cases h : k0 = k' <;> simp [upsert, lookupP, h]
      · simp only [upsert, if_neg h0, lookupP]
        by_cases h1 : k0 = k'
        · have h2 : ¬k = k' := fun hh => h0 (h1.trans hh.symm)
          simp [h1, h2]
        · simp [h1, ih]

theorem mem_of_lookupP {α : Type} (m : List (String × α)) (k : String) (v : α)
    (h : lookupP m k = some v) : (k, v) ∈ m := by
  induction m with
  | nil => simp [lookupP] at h
  | cons kv rest ih =>
      obtain ⟨k0, v0⟩ := kv
      by_cases h0 : k0 = k
      · subst h0
        simp [lookupP] at h
        simp [h]
      · simp [lookupP, h0] at h
        simp [ih h]

theorem lookupP_isSome_upsert {α : Type} (m : List (String × α)) (k k' : String)
    (r : α) (h : (lookupP m k').isSome) : (lookupP (upsert m k r) k').isSome := by
  rw [lookupP_upsert]
  by_cases hk : k = k' <;> simp [hk, h]

/-! ### C3: install-spec resolution -/

/-- C3: `get_install_spec` follows the documented string-construction rule
for every origin kind: a pypi spec with a present (truthy) package yields the
package concatenated with the version constraint verbatim when present, else
the bare package; a git spec yields `git+url`, then `@ref` iff `ref` is
present, then `#subdirectory=...` iff `subdirectory` is present, in that
order; a local spec yields the path verbatim; an unknown source fails with a
ConfigError naming the offending source string.  "Present" is Python
truthiness: the optional field is non-null and non-empty. -/
theorem C3_get_install_spec_rule (spec : PluginSpec) :
    (∀ p, spec.source = "pypi" → spec.package = some p → p ≠ "" →
      get_install_spec spec = .ok (p ++ spec.version.getD "")) ∧
    (∀ u, spec.source = "git" → spec.url = some u →
      get_install_spec spec = .ok ("git+" ++ u
        ++ (if truthy spec.ref then "@" ++ spec.ref.getD "" else "")
        ++ (if truthy spec.subdirectory then
              "#subdirectory=" ++ spec.subdirectory.getD "" else ""))) ∧
    (∀ q, spec.source = "local" → spec.path = some q → q ≠ "" →
      get_install_spec spec = .ok q) ∧
    (spec.source ≠ "pypi" → spec.source ≠ "git" → spec.source ≠ "local" →
      get_install_spec spec = .error ("Unknown source type: " ++ spec.source)) := by
  refine ⟨?_, ?_, ?_, ?_⟩
  · intro p hs hp hne
    rcases hv : spec.version with _ | v
    · simp [get_install_spec, hs, hp, hv, truthy, hne, String.append_empty]
    · by_cases he : v = ""
      · subst he
        simp [get_install_spec, hs, hp, hv, truthy, hne, String.append_empty]
      · simp [get_install_spec, hs, hp, hv, truthy, hne, he, pyStr]
  · intro u hs hu
    simp [get_install_spec, hs, hu, pyStr]
  · intro q hs hq hne
    simp [get_install_spec, hs, hq, truthy, hne]
  · intro h1 h2 h3
    simp [get_install_spec, h1, h2, h3]

/-- Witness for C3 at a concrete git spec with ref and subdirectory. -/
theorem C3_witness :
    get_install_spec
      { name := "g", source := "git", url := some "https://x/y.git",
        ref := some "main", subdirectory := some "pkg" }
      = .ok "git+https://x/y.git@main#subdirectory=pkg" := by
  have h := (C3_get_install_spec_rule
    { name := "g", source := "git", url := some "https://x/y.git",
      ref := some "main", subdirectory := some "pkg" }).2.1
    "https://x/y.git" rfl rfl
  simpa [truthy] using h

/-! ### C5: pip outcome classification -/

/-- C5: `_run_pip` classifies outcomes: exit code 0 yields success with the
combined stdout+stderr as message; a non-zero exit yields failure with the
combined output; a timeout yields failure with the fixed message stating the
configured timeout duration (hence distinguishable from pip's own output by
its fixed form). -/
theorem C5_run_pip_classification (t : Nat) (pip : PipOracle)
    (args : List String) :
    (∀ out err, pip args = .completed 0 out err →
      run_pip t pip args = (true, out ++ err)) ∧
    (∀ rc out err, pip args = .completed rc out err → rc ≠ 0 →
      run_pip t pip args = (false, out ++ err)) ∧
    (pip args = .timedOut →
      run_pip t pip args =
        (false, "Command timed out after " ++ toString t ++ " seconds")) := by
  refine ⟨?_, ?_, ?_⟩
  · intro out err h
    simp [run_pip, h]
  · intro rc out err h hrc
    simp [run_pip, h, hrc]
  · intro h
    simp [run_pip, h]

/-- Witness for C5: a pip process that exits 2 yields a failure carrying the
combined output. -/
theorem C5_witness :
    run_pip 300 (fun _ => .completed 2 "out" "err") ["install", "x"]
      = (false, "outerr") :=
  (C5_run_pip_classification 300 (fun _ => .completed 2 "out" "err")
    ["install", "x"]).2.1 2 "out" "err" rfl (by decide)

/-! ### C6: installFromSpec fail-fast cases -/

/-- C6: `install_from_spec` raises InstallerError (the error branch) exactly
when the source is unrecognized, or the source is git and `url` is absent,
or the source is local and `path` is absent; and in every such case no pip
invocation occurs. -/
theorem C6_install_from_spec_error_cases (t : Nat) (pip : PipOracle)
    (spec : PluginSpec) :
    (isErr (install_from_spec t pip spec).result = true ↔
      ((spec.source ≠ "pypi" ∧ spec.source ≠ "git" ∧ spec.source ≠ "local") ∨
       (spec.source = "git" ∧ truthy spec.url = false) ∨
       (spec.source = "local" ∧ truthy spec.path = false))) ∧
    (isErr (install_from_spec t pip spec).result = true →
      (install_from_spec t pip spec).pipCalls = []) := by
  simp only [install_from_spec]
  split_ifs with h1 h2 h3 h4 h5 <;>
    simp_all [isErr, install_pypi, install_git, install_local]

/-- Witness for C6: a git spec without a url hits the error branch and makes
no pip call. -/
theorem C6_witness :
    (install_from_spec 300 (fun _ => .completed 0 "" "")
        { name := "g", source := "git" }).pipCalls = [] :=
  (C6_install_from_spec_error_cases 300 (fun _ => .completed 0 "" "")
    { name := "g", source := "git" }).2 (by decide)

/-! ### C9: validate and required fields -/

/-- C9: for a spec whose source is one of the three known kinds and whose
name is non-empty, `validate` fails with ConfigError iff the required field
for that source is missing (falsy), and returns cleanly otherwise.
`validate` is a pure function, so success has no side effects. -/
theorem C9_validate_required_fields (spec : PluginSpec)
    (hname : spec.name ≠ "") :
    (spec.source = "pypi" →
      (truthy spec.package = false → isErr (validate spec) = true) ∧
      (truthy spec.package = true → validate spec = .ok ())) ∧
    (spec.source = "git" →
      (truthy spec.url = false → isErr (validate spec) = true) ∧
      (truthy spec.url = true → validate spec = .ok ())) ∧
    (spec.source = "local" →
      (truthy spec.path = false → isErr (validate spec) = true) ∧
      (truthy spec.path = true → validate spec = .ok ())) := by
  refine ⟨fun hs => ⟨fun h => ?_, fun h => ?_⟩,
          fun hs => ⟨fun h => ?_, fun h => ?_⟩,
          fun hs => ⟨fun h => ?_, fun h => ?_⟩⟩ <;>
    simp [validate, hname, hs, h, isErr]

/-- Witness for C9: a pypi spec with a package validates cleanly. -/
theorem C9_witness :
    validate { name := "a", source := "pypi", package := some "pkg" }
      = .ok () :=
  ((C9_validate_required_fields
    { name := "a", source := "pypi", package := some "pkg" }
    (by decide)).1 rfl).2 (by decide)

/-! ### C10: config-path override does not fall back -/

/-- C10: when the VLLM_PLUGIN_CONFIG override is set to a non-empty path,
`get_config_path` is determined entirely by the existence of that path — it
returns the override when it exists and `none` otherwise, never consulting
the default location under the home directory. -/
theorem C10_override_no_fallback (ex : String → Bool) (home p : String)
    (hp : p ≠ "") :
    (ex p = false → get_config_path (some p) ex home = none) ∧
    get_config_path (some p) ex home = (if ex p then some p else none) := by
  have ht : truthy (some p) = true := (truthy_some_iff p).mpr hp
  constructor
  · intro hex
    simp [get_config_path, ht, hex]
  · by_cases hex : ex p <;> simp [get_config_path, ht, hex]

/-- Witness for C10: the override points at a missing file while the default
file exists; the result is still `none`. -/
theorem C10_witness :
    get_config_path (some "/mnt/cfg.yaml")
      (fun s => s == "/home/u/.config/vllm/plugins.yaml") "/home/u" = none :=
  (C10_override_no_fallback
    (fun s => s == "/home/u/.config/vllm/plugins.yaml") "/home/u"
    "/mnt/cfg.yaml" (by decide)).1 (by decide)

/-! ### C7: registry corruption recovery -/

/-- C7: for every registry file state that is absent, not parsable as JSON,
or parsed but not a mapping containing a `"plugins"` key, `_load` (a total
function — construction never raises for these cases) yields the empty
registry: the `plugins` mapping is empty, so `get_plugin` is `none` for
every id and `get_all_plugins` is empty. -/
theorem C7_corrupt_registry_empty (f : LoadedFile)
    (hbad : ∀ d hp v pl, f = .json d hp v pl → (d && hp) = false) :
    (load f).plugins = [] ∧
    (∀ pid, lookupP (load f).plugins pid = none) := by
  have hempty : (load f).plugins = [] := by
    cases f with
    | absent => rfl
    | notJson => rfl
    | json d hp v pl =>
        have h := hbad d hp v pl rfl
        simp [load, h, create_empty_registry]
  exact ⟨hempty, fun pid => by rw [hempty]; rfl⟩

/-- Witness for C7 at a file that fails JSON parsing. -/
theorem C7_witness :
    (load .notJson).plugins = [] ∧
    lookupP (load .notJson).plugins "any-plugin" = none :=
  ⟨(C7_corrupt_registry_empty .notJson (fun _ _ _ _ h => nomatch h)).1,
   (C7_corrupt_registry_empty .notJson (fun _ _ _ _ h => nomatch h)).2
     "any-plugin"⟩

/-! ### C8: editable-mode dispatch -/

/-- Counterexample to C8: a vcs-source spec with `editable` set to true is
NOT installed in editable mode — `install_from_spec` does not forward
`spec.editable` to `install_git`, so the pip argument vector contains no
`-e` flag. -/
theorem C8_counterexample :
    (install_from_spec 300 (fun _ => .completed 0 "" "")
        gitEditableSpec).pipCalls = [["install", "git+https://x"]] ∧
    "-e" ∉ (["install", "git+https://x"] : List String) := by
  constructor
  · rfl
  · decide

/-- Amended C8: a local-source spec is installed in editable mode iff its
`editable` field is true (which defaults to true), while registry-source and
vcs-source installs are never editable — `install_from_spec` ignores the
`editable` field for them, so their pip argument vectors never carry `-e`. -/
theorem C8_editable_dispatch (t : Nat) (pip : PipOracle) (spec : PluginSpec) :
    (∀ q, spec.source = "local" → spec.path = some q → q ≠ "" →
      (install_from_spec t pip spec).pipCalls =
        [["install"] ++ (if spec.editable then ["-e"] else []) ++ [q]]) ∧
    (∀ u, spec.source = "git" → spec.url = some u → u ≠ "" →
      (install_from_spec t pip spec).pipCalls =
        [["install", "git+" ++ u
          ++ (if truthy spec.ref then "@" ++ spec.ref.getD "" else "")
          ++ (if truthy spec.subdirectory then
                "#subdirectory=" ++ spec.subdirectory.getD "" else "")]]) ∧
    (spec.source = "pypi" →
      (install_from_spec t pip spec).pipCalls =
        [["install",
          if truthy spec.version then
            (if truthy spec.package then spec.package.getD "" else spec.name)
              ++ spec.version.getD ""
          else
            (if truthy spec.package then spec.package.getD "" else spec.name)]]) := by
  refine ⟨?_, ?_, ?_⟩
  · intro q hs hq hne
    simp [install_from_spec, install_local, hs, hq, truthy, hne]
  · intro u hs hu hne
    simp [install_from_spec, install_git, hs, hu, truthy, hne]
  · intro hs
    by_cases hv : truthy spec.version = true <;>
      simp [install_from_spec, install_pypi, hs, hv]

/-- Witness for the amended C8: a local spec with the default
`editable = true` is installed with the `-e` flag. -/
theorem C8_witness :
    (install_from_spec 300 (fun _ => .completed 0 "" "")
        { name := "l", source := "local",
          path := some "/tmp/pkg" }).pipCalls =
      [["install", "-e", "/tmp/pkg"]] := by
  have h := (C8_editable_dispatch 300 (fun _ => .completed 0 "" "")
    { name := "l", source := "local", path := some "/tmp/pkg" }).1
    "/tmp/pkg" rfl rfl (by decide)
  simpa using h

/-! ### C4: the error-iff-failed registry invariant -/

/-- Counterexample to C4: a single `register_plugin` call with
`status=INSTALLED` and an `error` argument produces a record whose status is
`installed` while its `error` field is set — so the invariant "`error`
present iff status = failed" does not hold for every sequence of
`register_plugin`/`update_status` calls, and a record can end up `installed`
with `error` still set. -/
theorem C4_counterexample :
    lookupP (applyCalls []
        [.register "p" "p" "pypi" none none .installed none (some "boom")])
        "p"
      = some { name := "p", source := "pypi", package := none,
               version := none, status := "installed", entry_points := [],
               error := some "boom" } := by
  rfl

theorem value_eq_failed_iff (st : PluginStatus) :
    st.value = "failed" ↔ st = .failed := by
  cases st <;> simp [PluginStatus.value]

theorem ne_none_of_truthy (o : Option String) (h : truthy o = true) :
    o ≠ none := by
  cases o
  · simp [truthy] at h
  · simp

/-- Amended C4: the invariant "`error` present iff status = failed" is
preserved by every `register_plugin` and `update_status` call that passes a
non-empty `error` exactly when its status is `failed`, provided
`update_status` never moves a failed record to `pending`/`installing`
(where the code would retain the stale error); in particular `update_status`
to `installed` (with no error argument) clears a previously recorded
error. -/
theorem C4_error_iff_failed_preserved (m : RegMap) (c : RegCall)
    (hI : errIffFailed m) (hd : disciplined c) (hc : compatible m c) :
    errIffFailed (applyCall m c) ∧
    (∀ q s, lookupP m q = some s →
      lookupP (update_status m q .installed none) q =
        some { s with status := "installed", error := none }) := by
  constructor
  · cases c with
    | register pid name source package version st eps err =>
        intro q r hq
        simp only [applyCall, register_plugin] at hq
        rw [lookupP_upsert] at hq
        by_cases hpq : pid = q
        · rw [if_pos hpq, Option.some_inj] at hq
          subst hq
          by_cases he : truthy err = true
          · have hst : st = .failed := hd.mp he
            simp [he, hst, PluginStatus.value, ne_none_of_truthy err he]
          · have hst : st ≠ .failed := fun hh => he (hd.mpr hh)
            have hb : truthy err = false := by simpa using he
            simp [hb, value_eq_failed_iff, hst]
        · rw [if_neg hpq] at hq
          exact hI q r hq
    | update pid st err =>
        intro q r hq
        simp only [applyCall, update_status] at hq
        rcases hm : lookupP m pid with _ | r0
        · rw [hm] at hq
          exact hI q r hq
        · rw [hm] at hq
          simp only at hq
          rw [lookupP_upsert] at hq
          by_cases hpq : pid = q
          · rw [if_pos hpq] at hq
            by_cases he : truthy err = true
            · have hst : st = .failed := hd.mp he
              rw [if_pos he, Option.some_inj] at hq
              subst hq
              simp [hst, PluginStatus.value, ne_none_of_truthy err he]
            · have hst : st ≠ .failed := fun hh => he (hd.mpr hh)
              rw [if_neg he] at hq
              by_cases hcl :
                  ({ r0 with status := st.value } : InstallRecord).error.isSome
                    ∧ st = PluginStatus.installed
              · rw [if_pos hcl, Option.some_inj] at hq
                subst hq
                simp [value_eq_failed_iff, hst]
              · rw [if_neg hcl, Option.some_inj] at hq
                subst hq
                have h0 := hI pid r0 hm
                have herr : r0.error = none := by
                  rcases hst2 : st with _ | _ | _ | _
                  · have hnf : r0.status ≠ "failed" := by
                      subst hst2
                      exact hc (Or.inl rfl) r0 hm
                    by_cases hre : r0.error = none
                    · exact hre
                    · exact absurd (h0.mp hre) hnf
                  · have hnf : r0.status ≠ "failed" := by
                      subst hst2
                      exact hc (Or.inr rfl) r0 hm
                    by_cases hre : r0.error = none
                    · exact hre
                    · exact absurd (h0.mp hre) hnf
                  · by_cases hre : r0.error = none
                    · exact hre
                    · exact absurd
                        ⟨by simpa [Option.isSome_iff_ne_none] using hre,
                         hst2⟩ hcl
                  · exact absurd hst2 hst
                simp [herr, value_eq_failed_iff, hst]
          · rw [if_neg hpq] at hq
            exact hI q r hq
  · intro q s hqs
    simp only [update_status, hqs]
    rw [lookupP_upsert, if_pos rfl]
    simp only [truthy, Option.some_inj]
    rcases hse : s.error with _ | e <;> simp [hse, PluginStatus.value]

/-- Witness for the amended C4: starting from the empty registry, a
disciplined failed registration yields a record satisfying the
error-iff-failed biconditional. -/
theorem C4_witness :
    ({ name := "p", source := "pypi", package := none, version := none,
       status := "failed", entry_points := [],
       error := some "boom" } : InstallRecord).error ≠ none ↔
    ({ name := "p", source := "pypi", package := none, version := none,
       status := "failed", entry_points := [],
       error := some "boom" } : InstallRecord).status = "failed" :=
  (C4_error_iff_failed_preserved []
    (.register "p" "p" "pypi" none none .failed none (some "boom"))
    (fun _ _ h => nomatch h)
    ⟨fun _ => rfl, fun _ => by decide⟩
    trivial).1 "p" _ rfl

/-! ### Lemmas about registry operations and the reconciliation loop -/

theorem lookupP_register_ne (m : RegMap) (pid' n s : String)
    (p v : Option String) (st : PluginStatus) (e : Option (List String))
    (er : Option String) (pid : String) (h : pid' ≠ pid) :
    lookupP (register_plugin m pid' n s p v st e er) pid = lookupP m pid := by
  simp [register_plugin, lookupP_upsert, h]

theorem lookupP_register_self (m : RegMap) (pid n s : String)
    (p v : Option String) (st : PluginStatus) (e : Option (List String))
    (er : Option String) :
    lookupP (register_plugin m pid n s p v st e er) pid =
      some { name := n, source := s, package := p, version := v,
             status := st.value, entry_points := e.getD [],
             error := if truthy er then er else none } := by
  simp [register_plugin, lookupP_upsert]

theorem lookupP_update_ne (m : RegMap) (pid' : String) (st : PluginStatus)
    (er : Option String) (pid : String) (h : pid' ≠ pid) :
    lookupP (update_status m pid' st er) pid = lookupP m pid := by
  unfold update_status
  rcases lookupP m pid' with _ | r
  · rfl
  · simp [lookupP_upsert, h]

theorem lookupP_update_self (m : RegMap) (pid : String) (st : PluginStatus)
    (er : Option String) (r : InstallRecord) (h : lookupP m pid = some r) :
    lookupP (update_status m pid st er) pid =
      some (if truthy er then { r with status := st.value, error := er }
        else if r.error.isSome ∧ st = PluginStatus.installed then
          { r with status := st.value, error := none }
        else { r with status := st.value }) := by
  simp only [update_status, h]
  rw [lookupP_upsert, if_pos rfl]

theorem is_installed_congr (m m' : RegMap) (pid : String)
    (h : lookupP m pid = lookupP m' pid) :
    is_installed m pid = is_installed m' pid := by
  unfold is_installed
  rw [h]

theorem is_installed_register_installed (m : RegMap) (pid n s : String)
    (p v : Option String) (e : Option (List String)) (er : Option String) :
    is_installed (register_plugin m pid n s p v .installed e er) pid = true := by
  simp [is_installed, lookupP_register_self, PluginStatus.value]

theorem fail_chain (m : RegMap) (pid n s : String) (p : Option String)
    (msg : String) (hm : msg ≠ "") :
    lookupP (update_status (update_status
        (register_plugin m pid n s p none .pending none none)
        pid .installing none) pid .failed (some msg)) pid
      = some { name := n, source := s, package := p, version := none,
               status := "failed", entry_points := [], error := some msg } := by
  have h0 := lookupP_register_self m pid n s p none .pending none none
  have h1 : lookupP (update_status
      (register_plugin m pid n s p none .pending none none)
      pid .installing none) pid
      = some { name := n, source := s, package := p, version := none,
               status := "installing", entry_points := [], error := none } := by
    rw [lookupP_update_self _ pid .installing none _ h0]
    simp [truthy, PluginStatus.value]
  rw [lookupP_update_self _ pid .failed (some msg) _ h1]
  simp [truthy, hm, PluginStatus.value]

theorem step_reg_lookup_ne (env : ManagerEnv) (spec : PluginSpec)
    (st : LoopState) (pid : String) (h : plugin_id spec ≠ pid) :
    lookupP (loop_step env spec st).reg pid = lookupP st.reg pid := by
  by_cases hb : is_installed st.reg (plugin_id spec) = true
  · simp [loop_step, hb]
  · rcases hfr : (install_from_spec env.timeout env.pip spec).result
      with e | ⟨succ, msg⟩
    · simp [loop_step, hb, hfr, lookupP_update_ne, lookupP_register_ne, h]
    · cases succ <;>
        simp [loop_step, hb, hfr, lookupP_update_ne, lookupP_register_ne, h]

theorem step_results_eq (env : ManagerEnv) (spec : PluginSpec)
    (st : LoopState) :
    ∃ v, (loop_step env spec st).results =
      upsert st.results (plugin_id spec) v := by
  by_cases hb : is_installed st.reg (plugin_id spec) = true
  · exact ⟨(true, "Already installed"), by simp [loop_step, hb]⟩
  · rcases hfr : (install_from_spec env.timeout env.pip spec).result
      with e | ⟨succ, msg⟩
    · exact ⟨(false, e), by simp [loop_step, hb, hfr]⟩
    · cases succ
      · exact ⟨(false, msg), by simp [loop_step, hb, hfr]⟩
      · refine ⟨(true, "Installed "
          ++ (if truthy (env.ver (if truthy spec.package then
                spec.package.getD "" else spec.name)) then
              (env.ver (if truthy spec.package then
                spec.package.getD "" else spec.name)).getD ""
            else "successfully")), ?_⟩
        simp [loop_step, hb, hfr]

theorem step_pipCalls_eq (env : ManagerEnv) (spec : PluginSpec)
    (st : LoopState) :
    ∃ cs, (loop_step env spec st).pipCalls = st.pipCalls ++ cs := by
  by_cases hb : is_installed st.reg (plugin_id spec) = true
  · exact ⟨[], by simp [loop_step, hb]⟩
  · rcases hfr : (install_from_spec env.timeout env.pip spec).result
      with e | ⟨succ, msg⟩
    · exact ⟨(install_from_spec env.timeout env.pip spec).pipCalls,
        by simp [loop_step, hb, hfr]⟩
    · cases succ
      · exact ⟨(install_from_spec env.timeout env.pip spec).pipCalls,
          by simp [loop_step, hb, hfr]⟩
      · exact ⟨(install_from_spec env.timeout env.pip spec).pipCalls,
          by simp [loop_step, hb, hfr]⟩

theorem step_of_installed (env : ManagerEnv) (spec : PluginSpec)
    (st : LoopState) (hb : is_installed st.reg (plugin_id spec) = true) :
    loop_step env spec st =
      { st with results :=
          upsert st.results (plugin_id spec) (true, "Already installed") } := by
  simp [loop_step, hb]

theorem step_of_fail (env : ManagerEnv) (spec : PluginSpec) (st : LoopState)
    (msg : String)
    (hb : is_installed st.reg (plugin_id spec) = false)
    (hfail : (install_from_spec env.timeout env.pip spec).result
        = .ok (false, msg) ∨
      (install_from_spec env.timeout env.pip spec).result = .error msg) :
    loop_step env spec st =
      { reg := update_status (update_status
            (register_plugin st.reg (plugin_id spec) spec.name spec.source
              spec.package none .pending none none)
            (plugin_id spec) .installing none)
          (plugin_id spec) .failed (some msg)
        results := upsert st.results (plugin_id spec) (false, msg)
        pipCalls := st.pipCalls
          ++ (install_from_spec env.timeout env.pip spec).pipCalls
        installed_any := st.installed_any } := by
  rcases hfail with h | h <;> simp [loop_step, hb, h]

theorem step_installed_mono (env : ManagerEnv) (spec : PluginSpec)
    (st : LoopState) (pid : String) (h : is_installed st.reg pid = true) :
    is_installed (loop_step env spec st).reg pid = true := by
  by_cases hpe : plugin_id spec = pid
  · subst hpe
    have hb : is_installed st.reg (plugin_id spec) = true := h
    rw [step_of_installed env spec st hb]
    exact h
  · rw [is_installed_congr _ st.reg pid (step_reg_lookup_ne env spec st pid hpe)]
    exact h

theorem step_success_installed (env : ManagerEnv) (spec : PluginSpec)
    (st : LoopState) (pid : String) (v : Bool × String)
    (hres : lookupP (loop_step env spec st).results pid = some v)
    (hv : v.1 = true) :
    lookupP st.results pid = some v ∨
      is_installed (loop_step env spec st).reg pid = true := by
  by_cases hpe : plugin_id spec = pid
  · subst hpe
    by_cases hb : is_installed st.reg (plugin_id spec) = true
    · right
      rw [step_of_installed env spec st hb]
      exact hb
    · rcases hfr : (install_from_spec env.timeout env.pip spec).result
        with e | ⟨succ, msg⟩
      · exfalso
        rw [step_of_fail env spec st e (by simpa using hb) (Or.inr hfr)] at hres
        rw [lookupP_upsert, if_pos rfl, Option.some_inj] at hres
        rw [← hres] at hv
        simp at hv
      · cases succ
        · exfalso
          rw [step_of_fail env spec st msg (by simpa using hb) (Or.inl hfr)]
            at hres
          rw [lookupP_upsert, if_pos rfl, Option.some_inj] at hres
          rw [← hres] at hv
          simp at hv
        · right
          simp only [loop_step, hb, if_false, hfr]
          simp only [Bool.false_eq_true, if_false] at *
          exact is_installed_register_installed _ _ _ _ _ _ _ _
  · obtain ⟨w, hw⟩ := step_results_eq env spec st
    rw [hw, lookupP_upsert, if_neg hpe] at hres
    left
    exact hres

theorem install_loop_append (env : ManagerEnv) (xs ys : List PluginSpec) :
    ∀ st, install_loop env (xs ++ ys) st =
      install_loop env ys (install_loop env xs st) := by
  induction xs with
  | nil => intro st; rfl
  | cons x rest ih =>
      intro st
      show install_loop env (rest ++ ys) (loop_step env x st)
        = install_loop env ys (install_loop env rest (loop_step env x st))
      exact ih _

theorem loop_installed_mono (env : ManagerEnv) (specs : List PluginSpec) :
    ∀ st pid, is_installed st.reg pid = true →
      is_installed (install_loop env specs st).reg pid = true := by
  induction specs with
  | nil => intro st pid h; exact h
  | cons spec rest ih =>
      intro st pid h
      exact ih _ _ (step_installed_mono env spec st pid h)

theorem loop_reg_ne (env : ManagerEnv) (specs : List PluginSpec) :
    ∀ st pid, (∀ s ∈ specs, plugin_id s ≠ pid) →
      lookupP (install_loop env specs st).reg pid = lookupP st.reg pid := by
  induction specs with
  | nil => intro st pid _; rfl
  | cons spec rest ih =>
      intro st pid h
      have h1 := step_reg_lookup_ne env spec st pid (h spec (by simp))
      have h2 := ih (loop_step env spec st) pid (fun s hs => h s (by simp [hs]))
      exact h2.trans h1

theorem loop_results_ne (env : ManagerEnv) (specs : List PluginSpec) :
    ∀ st pid, (∀ s ∈ specs, plugin_id s ≠ pid) →
      lookupP (install_loop env specs st).results pid
        = lookupP st.results pid := by
  induction specs with
  | nil => intro st pid _; rfl
  | cons spec rest ih =>
      intro st pid h
      obtain ⟨v, hv⟩ := step_results_eq env spec st
      have h2 := ih (loop_step env spec st) pid (fun s hs => h s (by simp [hs]))
      rw [install_loop, h2, hv, lookupP_upsert, if_neg (h spec (by simp))]

theorem loop_results_present (env : ManagerEnv) (specs : List PluginSpec) :
    ∀ st pid, (lookupP st.results pid).isSome →
      (lookupP (install_loop env specs st).results pid).isSome := by
  induction specs with
  | nil => intro st pid h; exact h
  | cons spec rest ih =>
      intro st pid h
      obtain ⟨v, hv⟩ := step_results_eq env spec st
      refine ih _ _ ?_
      rw [hv]
      exact lookupP_isSome_upsert _ _ _ _ h

theorem loop_results_mem (env : ManagerEnv) (specs : List PluginSpec) :
    ∀ st s, s ∈ specs →
      (lookupP (install_loop env specs st).results (plugin_id s)).isSome := by
  induction specs with
  | nil => intro st s hs; cases hs
  | cons spec rest ih =>
      intro st s hs
      rcases List.mem_cons.mp hs with h | h
      · obtain ⟨v, hv⟩ := step_results_eq env spec st
        refine loop_results_present env rest _ _ ?_
        rw [h, hv, lookupP_upsert, if_pos rfl]
        rfl
      · exact ih _ _ h

theorem loop_success_installed (env : ManagerEnv) (specs : List PluginSpec) :
    ∀ st pid v, lookupP (install_loop env specs st).results pid = some v →
      v.1 = true →
      lookupP st.results pid = some v ∨
        is_installed (install_loop env specs st).reg pid = true := by
  induction specs with
  | nil => intro st pid v h _; left; exact h
  | cons spec rest ih =>
      intro st pid v h hv
      rcases ih _ _ _ h hv with h1 | h1
      · rcases step_success_installed env spec st pid v h1 hv with h2 | h2
        · left; exact h2
        · right; exact loop_installed_mono env rest _ _ h2
      · right; exact h1

theorem loop_all_installed (env : ManagerEnv) (specs : List PluginSpec) :
    ∀ st, (∀ s ∈ specs, is_installed st.reg (plugin_id s) = true) →
      (install_loop env specs st).reg = st.reg ∧
      (install_loop env specs st).pipCalls = st.pipCalls ∧
      (install_loop env specs st).installed_any = st.installed_any ∧
      (∀ pid, lookupP (install_loop env specs st).results pid
          = some (true, "Already installed") ∨
        lookupP (install_loop env specs st).results pid
          = lookupP st.results pid) ∧
      (∀ s ∈ specs, lookupP (install_loop env specs st).results (plugin_id s)
          = some (true, "Already installed")) := by
  induction specs with
  | nil =>
      intro st _
      exact ⟨rfl, rfl, rfl, fun pid => Or.inr rfl, by simp⟩
  | cons spec rest ih =>
      intro st hall
      have hb : is_installed st.reg (plugin_id spec) = true :=
        hall spec (by simp)
      have hstep := step_of_installed env spec st hb
      have hall' : ∀ s ∈ rest,
          is_installed (loop_step env spec st).reg (plugin_id s) = true := by
        intro s hs
        rw [hstep]
        exact hall s (by simp [hs])
      obtain ⟨h1, h2, h3, h4, h5⟩ := ih (loop_step env spec st) hall'
      refine ⟨?_, ?_, ?_, ?_, ?_⟩
      · rw [install_loop, h1, hstep]
      · rw [install_loop, h2, hstep]
      · rw [install_loop, h3, hstep]
      · intro pid
        rcases h4 pid with h | h
        · left
          rw [install_loop]
          exact h
        · rw [install_loop, h, hstep]
          simp only [lookupP_upsert]
          by_cases hpe : plugin_id spec = pid
          · left; rw [if_pos hpe]
          · right; rw [if_neg hpe]
      · intro s hs
        rcases List.mem_cons.mp hs with h | h
        · subst h
          rcases h4 (plugin_id s) with hh | hh
          · rw [install_loop]; exact hh
          · rw [install_loop, hh, hstep, lookupP_upsert, if_pos rfl]
        · exact h5 s h

theorem attach_pair_preserve (m : RegMap) (pkg ep : String) (pid : String) :
    Option.map (fun r => (r.status, r.error))
        (lookupP (attach_entry_point m pkg ep) pid)
      = Option.map (fun r => (r.status, r.error)) (lookupP m pid) := by
  unfold attach_entry_point
  rcases h : lookupP m pkg with _ | r
  · rfl
  · by_cases hmem : ep ∈ r.entry_points
    · simp [hmem]
    · simp only [hmem, if_false, update_entry_points, h, lookupP_upsert]
      by_cases hpq : pkg = pid
      · subst hpq
        rw [if_pos rfl, h]
        simp
      · rw [if_neg hpq]

theorem attach_all_preserve (eps : List (String × String)) :
    ∀ (m : RegMap) (pid : String),
      Option.map (fun r => (r.status, r.error))
          (lookupP (attach_all m eps) pid)
        = Option.map (fun r => (r.status, r.error)) (lookupP m pid) := by
  induction eps with
  | nil => intro m pid; rfl
  | cons e rest ih =>
      intro m pid
      have h1 := attach_pair_preserve m e.1 e.2 pid
      have h2 := ih (attach_entry_point m e.1 e.2) pid
      simp only [attach_all, List.foldl_cons] at h2 ⊢
      exact h2.trans h1

theorem attach_all_installed (m : RegMap) (eps : List (String × String))
    (pid : String) :
    is_installed (attach_all m eps) pid = is_installed m pid := by
  have h := attach_all_preserve eps m pid
  unfold is_installed
  rcases h1 : lookupP (attach_all m eps) pid with _ | r1 <;>
    rcases h2 : lookupP m pid with _ | r2 <;>
      rw [h1, h2] at h <;> simp at h ⊢
  simp [h.1]

theorem install_plugins_results (env : ManagerEnv) (plugins : List PluginSpec)
    (reg0 : RegMap)
    (h : (plugins.filter (fun p => p.enabled)).isEmpty = false) :
    (install_plugins env plugins reg0).results
      = (install_loop env (plugins.filter (fun p => p.enabled))
          { reg := reg0, results := [], pipCalls := [],
            installed_any := false }).results := by
  unfold install_plugins
  simp only [h, Bool.false_eq_true, if_false]
  split <;> rfl

theorem install_plugins_pipCalls (env : ManagerEnv) (plugins : List PluginSpec)
    (reg0 : RegMap)
    (h : (plugins.filter (fun p => p.enabled)).isEmpty = false) :
    (install_plugins env plugins reg0).pipCalls
      = (install_loop env (plugins.filter (fun p => p.enabled))
          { reg := reg0, results := [], pipCalls := [],
            installed_any := false }).pipCalls := by
  unfold install_plugins
  simp only [h, Bool.false_eq_true, if_false]
  split <;> rfl

theorem install_plugins_is_installed (env : ManagerEnv)
    (plugins : List PluginSpec) (reg0 : RegMap)
    (h : (plugins.filter (fun p => p.enabled)).isEmpty = false)
    (pid : String) :
    is_installed (install_plugins env plugins reg0).reg pid
      = is_installed (install_loop env (plugins.filter (fun p => p.enabled))
          { reg := reg0, results := [], pipCalls := [],
            installed_any := false }).reg pid := by
  unfold install_plugins
  simp only [h, Bool.false_eq_true, if_false]
  split
  · exact attach_all_installed _ _ _
  · rfl

theorem install_plugins_reg_map (env : ManagerEnv)
    (plugins : List PluginSpec) (reg0 : RegMap)
    (h : (plugins.filter (fun p => p.enabled)).isEmpty = false)
    (pid : String) :
    Option.map (fun r => (r.status, r.error))
        (lookupP (install_plugins env plugins reg0).reg pid)
      = Option.map (fun r => (r.status, r.error))
        (lookupP (install_loop env (plugins.filter (fun p => p.enabled))
          { reg := reg0, results := [], pipCalls := [],
            installed_any := false }).reg pid) := by
  unfold install_plugins
  simp only [h, Bool.false_eq_true, if_false]
  split
  · exact attach_all_preserve _ _ _
  · rfl

/-! ### C1: idempotence of installPlugins -/

/-- C1: `install_plugins` is idempotent.  For a well-formed desired-state
list, if every per-plugin result of a first call was a success, then a
second call with the same desired state, the same environment, and the
registry produced by the first call performs zero pip invocations and
returns `(true, "Already installed")` for every enabled entry, keyed by its
plugin id. -/
theorem C1_idempotent (env : ManagerEnv) (plugins : List PluginSpec)
    (reg0 : RegMap)
    (hwf : ∀ spec ∈ plugins, validate spec = .ok ())
    (hsucc : ∀ kv ∈ (install_plugins env plugins reg0).results,
      kv.2.1 = true) :
    (install_plugins env plugins
        (install_plugins env plugins reg0).reg).pipCalls = [] ∧
    ∀ spec ∈ plugins, spec.enabled = true →
      lookupP (install_plugins env plugins
          (install_plugins env plugins reg0).reg).results (plugin_id spec)
        = some (true, "Already installed") := by
  by_cases hemp : (plugins.filter (fun p => p.enabled)).isEmpty = true
  · have hnil : plugins.filter (fun p => p.enabled) = [] := by simpa using hemp
    constructor
    · simp [install_plugins, hemp]
    · intro spec hm hen
      exfalso
      have hmem : spec ∈ plugins.filter (fun p => p.enabled) :=
        List.mem_filter.mpr ⟨hm, by simp [hen]⟩
      rw [hnil] at hmem
      cases hmem
  · have hf : (plugins.filter (fun p => p.enabled)).isEmpty = false := by
      simpa using hemp
    have hres1 := install_plugins_results env plugins reg0 hf
    have hA : ∀ s ∈ plugins.filter (fun p => p.enabled),
        is_installed (install_plugins env plugins reg0).reg
          (plugin_id s) = true := by
      intro s hs
      have hsome := loop_results_mem env (plugins.filter (fun p => p.enabled))
        { reg := reg0, results := [], pipCalls := [], installed_any := false }
        s hs
      obtain ⟨v, hv⟩ := Option.isSome_iff_exists.mp hsome
      have hmem := mem_of_lookupP _ _ _ hv
      have hv1 : v.1 = true := by
        have := hsucc (plugin_id s, v) (by rw [hres1]; exact hmem)
        simpa using this
      rcases loop_success_installed env _ _ _ _ hv hv1 with h | h
      · simp [lookupP] at h
      · rw [install_plugins_is_installed env plugins reg0 hf]
        exact h
    obtain ⟨g1, g2, g3, g4, g5⟩ :=
      loop_all_installed env (plugins.filter (fun p => p.enabled))
        { reg := (install_plugins env plugins reg0).reg, results := [],
          pipCalls := [], installed_any := false } hA
    constructor
    · rw [install_plugins_pipCalls env plugins _ hf, g2]
    · intro spec hm hen
      have hs : spec ∈ plugins.filter (fun p => p.enabled) :=
        List.mem_filter.mpr ⟨hm, by simp [hen]⟩
      rw [install_plugins_results env plugins _ hf]
      exact g5 spec hs

/-- Witness for C1: one enabled pypi plugin in an always-succeeding
environment.  The first run installs it; the second run makes no pip calls
and reports it already installed. -/
theorem C1_witness :
    (install_plugins envW [specW]
        (install_plugins envW [specW] []).reg).pipCalls = [] ∧
    lookupP (install_plugins envW [specW]
        (install_plugins envW [specW] []).reg).results "pkg"
      = some (true, "Already installed") := by
  have hwf : ∀ spec ∈ [specW], validate spec = .ok () := by
    intro spec hs
    rw [List.mem_singleton.mp hs]
    rfl
  have hres : (install_plugins envW [specW] []).results
      = [("pkg", (true, "Installed 1.0"))] := rfl
  have hsucc : ∀ kv ∈ (install_plugins envW [specW] []).results,
      kv.2.1 = true := by
    intro kv hkv
    rw [hres] at hkv
    rw [List.mem_singleton.mp hkv]
  have h := C1_idempotent envW [specW] [] hwf hsucc
  refine ⟨h.1, ?_⟩
  have h2 := h.2 specW (by simp) rfl
  exact (show plugin_id specW = "pkg" from rfl) ▸ h2

/-! ### C2: per-plugin fault isolation -/

/-- C2: per-plugin fault isolation.  For an enabled spec (of distinct plugin
id among the enabled entries) that is not yet installed and whose install
attempt fails — whether the installer returns a failure tuple or raises an
InstallerError (the error branch) — `install_plugins` records
`(false, message)` for that plugin id, leaves its registry record with
status `failed` and the error text, and still produces a result entry for
every enabled spec in the list (the loop, a total function, never lets a
per-plugin exception escape). -/
theorem C2_fault_isolation (env : ManagerEnv) (plugins : List PluginSpec)
    (reg0 : RegMap) (pre post : List PluginSpec) (spec : PluginSpec)
    (msg : String)
    (hsplit : plugins.filter (fun p => p.enabled) = pre ++ spec :: post)
    (hdist : ∀ s ∈ pre ++ post, plugin_id s ≠ plugin_id spec)
    (hni : is_installed reg0 (plugin_id spec) = false)
    (hfail : (install_from_spec env.timeout env.pip spec).result
        = .ok (false, msg) ∨
      (install_from_spec env.timeout env.pip spec).result = .error msg)
    (hmsg : msg ≠ "") :
    lookupP (install_plugins env plugins reg0).results (plugin_id spec)
      = some (false, msg) ∧
    Option.map (fun r => (r.status, r.error))
        (lookupP (install_plugins env plugins reg0).reg (plugin_id spec))
      = some ("failed", some msg) ∧
    ∀ s ∈ plugins.filter (fun p => p.enabled),
      (lookupP (install_plugins env plugins reg0).results
        (plugin_id s)).isSome := by
  have hf : (plugins.filter (fun p => p.enabled)).isEmpty = false := by
    rw [hsplit]
    simp
  have hloop : install_loop env (pre ++ spec :: post)
        { reg := reg0, results := [], pipCalls := [], installed_any := false }
      = install_loop env post (loop_step env spec (install_loop env pre
          { reg := reg0, results := [], pipCalls := [],
            installed_any := false })) := by
    rw [install_loop_append]
    rfl
  have hpreReg : lookupP (install_loop env pre
        { reg := reg0, results := [], pipCalls := [],
          installed_any := false }).reg (plugin_id spec)
      = lookupP reg0 (plugin_id spec) :=
    loop_reg_ne env pre _ _
      (fun s hs => hdist s (List.mem_append.mpr (Or.inl hs)))
  have hniPre : is_installed (install_loop env pre
        { reg := reg0, results := [], pipCalls := [],
          installed_any := false }).reg (plugin_id spec) = false := by
    rw [is_installed_congr _ reg0 _ hpreReg]
    exact hni
  have hstep := step_of_fail env spec _ msg hniPre hfail
  have hrec : lookupP (loop_step env spec (install_loop env pre
        { reg := reg0, results := [], pipCalls := [],
          installed_any := false })).reg (plugin_id spec)
      = some { name := spec.name, source := spec.source,
               package := spec.package, version := none, status := "failed",
               entry_points := [], error := some msg } := by
    rw [hstep]
    exact fail_chain _ _ _ _ _ _ hmsg
  have hresS : lookupP (loop_step env spec (install_loop env pre
        { reg := reg0, results := [], pipCalls := [],
          installed_any := false })).results (plugin_id spec)
      = some (false, msg) := by
    rw [hstep]
    simp [lookupP_upsert]
  have hpost : ∀ s ∈ post, plugin_id s ≠ plugin_id spec :=
    fun s hs => hdist s (List.mem_append.mpr (Or.inr hs))
  refine ⟨?_, ?_, ?_⟩
  · rw [install_plugins_results env plugins reg0 hf, hsplit, hloop,
      loop_results_ne env post _ _ hpost]
    exact hresS
  · rw [install_plugins_reg_map env plugins reg0 hf, hsplit, hloop,
      loop_reg_ne env post _ _ hpost, hrec]
    rfl
  · intro s hs
    rw [install_plugins_results env plugins reg0 hf]
    exact loop_results_mem env _ _ s hs

/-- Witness for C2: two enabled pypi plugins; pip fails with output "boom"
for the first and succeeds for the second.  The first is recorded as a
failure with status failed, and the second still gets a result entry. -/
theorem C2_witness :
    lookupP (install_plugins envFailW [specFailW, specOkW] []).results "bad"
      = some (false, "boom") ∧
    Option.map (fun r => (r.status, r.error))
        (lookupP (install_plugins envFailW [specFailW, specOkW] []).reg "bad")
      = some ("failed", some "boom") ∧
    (lookupP (install_plugins envFailW
        [specFailW, specOkW] []).results "good").isSome := by
  have h := C2_fault_isolation envFailW [specFailW, specOkW] [] []
    [specOkW] specFailW "boom" (by decide) (by decide) rfl (Or.inl rfl)
    (by decide)
  refine ⟨h.1, h.2.1, ?_⟩
  have h3 := h.2.2 specOkW (by decide)
  exact (show plugin_id specOkW = "good" from rfl) ▸ h3

end VPM
